import Mathlib

/-!
Verification of the Resume-Creator CV generator (`generate_cv.py`).

The Python program turns a JSON profile record into a sequence of styled
docx blocks.  We embed the observable document structure shallowly:

* a paragraph is modelled as its alignment, whether it carries the section
  heading bottom border, and its list of runs (text, bold, italic, font
  size in points); purely visual attributes that no claim mentions
  (colors, spacing, indents, line spacing) are abstracted away;
* the two-column photo header table is a separate constructor holding the
  left cell paragraphs and the photo path;
* Python dictionary access with `.get` is modelled with `Option` and an
  explicit truthiness test (`None` and the empty string are both falsy);
  direct indexing `d[k]`, which raises `KeyError` on a missing key, is
  modelled in the `Except` monad.
-/

namespace ResumeCreator

/-- Paragraph alignment, as set through `WD_ALIGN_PARAGRAPH`. -/
inductive Align where
  | left
  | center
  | right
deriving DecidableEq

/-- One docx run: its text and the font attributes the generator sets. -/
structure DocRun where
  text : String
  bold : Bool
  italic : Bool
  size : Nat
deriving DecidableEq

/-- One top-level block of the generated document. -/
inductive Block where
  | para (align : Align) (border : Bool) (runs : List DocRun)
  | headerTable (leftCell : List (Align × List DocRun)) (photoPath : String)
deriving DecidableEq

/-- Concatenated text of a top-level paragraph (a table renders nothing
at the top level; its cells are inspected separately). -/
def blockText : Block → String
  | .para _ _ runs => String.join (runs.map DocRun.text)
  | .headerTable _ _ => ""

/-- Python truthiness of an optional string: `None` and `""` are falsy. -/
def truthy : Option String → Bool
  | none => false
  | some s => !s.isEmpty

/-- One character of Python `str.upper()`.  Python uppercases the full
Unicode range; every non-ASCII character this repository feeds through
`.upper()` is `é` or `ó` (from the Spanish labels), so the mapping is the
ASCII one extended with those two characters. -/
def upperChar (c : Char) : Char :=
  if c = 'é' then 'É'
  else if c = 'ó' then 'Ó'
  else c.toUpper

/-- Python `str.upper()`, character by character. -/
def pyUpper (s : String) : String :=
  ⟨s.data.map upperChar⟩

/-- The `TRANSLATIONS` table rows: section labels for one language. -/
structure Translations where
  professional_summary : String
  technical_skills : String
  professional_experience : String
  education : String
  certifications_languages : String
  certifications : String
  languages : String
deriving DecidableEq

/-- `TRANSLATIONS['en']`. -/
def tr_en : Translations :=
  { professional_summary := "Professional Summary"
    technical_skills := "Technical Skills"
    professional_experience := "Professional Experience"
    education := "Education"
    certifications_languages := "Certifications & Languages"
    certifications := "Certifications"
    languages := "Languages" }

/-- `TRANSLATIONS['es']`. -/
def tr_es : Translations :=
  { professional_summary := "Resumen Profesional"
    technical_skills := "Habilidades Técnicas"
    professional_experience := "Experiencia Profesional"
    education := "Educación"
    certifications_languages := "Certificaciones e Idiomas"
    certifications := "Certificaciones"
    languages := "Idiomas" }

/-- Lookup in the `TRANSLATIONS` dictionary. -/
def TRANSLATIONS (language : String) : Option Translations :=
  if language = "en" then some tr_en
  else if language = "es" then some tr_es
  else none

/-- `__init__`: `language if language in self.TRANSLATIONS else 'en'`. -/
def resolveLang (language : String) : Translations :=
  (TRANSLATIONS language).getD tr_en

/-- The `personal` sub-dictionary of the data record. -/
structure Personal where
  name : Option String := none
  title : Option String := none
  email : Option String := none
  phone : Option String := none
  location : Option String := none
  github : Option String := none
  linkedin : Option String := none
  portfolio : Option String := none
deriving DecidableEq

/-- One entry of the `experience` list. -/
structure Job where
  title : Option String := none
  company : Option String := none
  location : Option String := none
  dates : Option String := none
  achievements : List String := []
deriving DecidableEq

/-- One entry of the `education` list. -/
structure Edu where
  degree : Option String := none
  institution : Option String := none
  dates : Option String := none
  details : Option String := none
deriving DecidableEq

/-- One entry of the `languages` list. -/
structure LangEntry where
  language : Option String := none
  level : Option String := none
deriving DecidableEq

/-- The whole profile record.  `skills` is a Python dict whose iteration
order is insertion order, so it is modelled as an association list. -/
structure ProfileRecord where
  personal : Personal := {}
  summary : Option String := none
  skills : List (String × String) := []
  experience : List Job := []
  education : List Edu := []
  certifications : List String := []
  languages : List LangEntry := []
deriving DecidableEq

/-- `_add_section_heading`: uppercased bold text at section size with a
bottom border. -/
def sectionHeading (text : String) : Block :=
  .para .left true [⟨pyUpper text, true, false, 12⟩]

/-- `_add_bullet`: a body-size run reading `"• <text>"`. -/
def bulletPara (text : String) : Block :=
  .para .left false [⟨"• " ++ text, false, false, 11⟩]

/-- `contact_parts`, collected in source order (email, phone, location),
each included only when truthy. -/
def contactParts (p : Personal) : List String :=
  (if truthy p.email then [p.email.getD ""] else [])
  ++ (if truthy p.phone then [p.phone.getD ""] else [])
  ++ (if truthy p.location then [p.location.getD ""] else [])

/-- `link_parts`, collected in source order (github, linkedin, portfolio),
each included only when truthy. -/
def linkParts (p : Personal) : List String :=
  (if truthy p.github then [p.github.getD ""] else [])
  ++ (if truthy p.linkedin then [p.linkedin.getD ""] else [])
  ++ (if truthy p.portfolio then [p.portfolio.getD ""] else [])

/-- Name paragraph of the centered header layout. -/
def namePara (p : Personal) : Block :=
  .para .center false [⟨pyUpper (p.name.getD "Your Name"), true, false, 26⟩]

/-- Title paragraph of the centered header layout. -/
def titlePara (p : Personal) : Block :=
  .para .center false [⟨p.title.getD "Professional Title", false, false, 13⟩]

/-- Contact line of the centered header layout. -/
def contactPara (p : Personal) : Block :=
  .para .center false [⟨String.intercalate "  |  " (contactParts p), false, false, 10⟩]

/-- Links line of the centered header layout. -/
def linksPara (p : Personal) : Block :=
  .para .center false [⟨String.intercalate "  |  " (linkParts p), false, false, 10⟩]

/-- Left cell of the two-column photo header table. -/
def photoLeftCell (p : Personal) : List (Align × List DocRun) :=
  [(.left, [⟨pyUpper (p.name.getD "Your Name"), true, false, 26⟩]),
   (.left, [⟨p.title.getD "Professional Title", false, false, 13⟩])]
  ++ (if (contactParts p).isEmpty then []
      else [(.left, [⟨String.intercalate "  |  " (contactParts p), false, false, 10⟩])])
  ++ (if (linkParts p).isEmpty then []
      else [(.left, [⟨String.intercalate "  |  " (linkParts p), false, false, 10⟩])])

/-- `has_photo = self.photo_path and Path(self.photo_path).exists()`: the
path must be truthy and name an existing file. -/
def has_photo (photo_path : Option String) (fileExists : String → Bool) : Bool :=
  truthy photo_path && fileExists (photo_path.getD "")

/-- `build_header`: the photo layout is used only when `has_photo`;
otherwise the centered layout, which never consults the photo path. -/
def build_header (p : Personal) (photo_path : Option String)
    (fileExists : String → Bool) : List Block :=
  if has_photo photo_path fileExists then
    [.headerTable (photoLeftCell p) (photo_path.getD ""),
     .para .left false []]
  else
    [namePara p, titlePara p]
    ++ (if (contactParts p).isEmpty then [] else [contactPara p])
    ++ (if (linkParts p).isEmpty then [] else [linksPara p])

/-- `build_summary`: heading plus one body paragraph, only when the
summary text is truthy. -/
def build_summary (t : Translations) (summary : Option String) : List Block :=
  if truthy summary then
    [sectionHeading t.professional_summary,
     .para .left false [⟨summary.getD "", false, false, 11⟩]]
  else []

/-- One skill line: a bold `"<category>: "` run followed by the skill
string run. -/
def skillLine (category skill_list : String) : Block :=
  .para .left false [⟨category ++ ": ", true, false, 11⟩, ⟨skill_list, false, false, 11⟩]

/-- `build_skills`: heading plus one line per category, in dict insertion
order, only when `skills` is non-empty. -/
def build_skills (t : Translations) (skills : List (String × String)) : List Block :=
  if skills.isEmpty then []
  else sectionHeading t.technical_skills :: skills.map (fun cs => skillLine cs.1 cs.2)

/-- Job header paragraph: bold title run, `" | "`, italic company run,
`" | <location>"` run. -/
def jobHeader (j : Job) : Block :=
  .para .left false
    [⟨j.title.getD "", true, false, 11⟩,
     ⟨" | ", false, false, 11⟩,
     ⟨j.company.getD "", false, true, 11⟩,
     ⟨" | " ++ j.location.getD "", false, false, 11⟩]

/-- Job date paragraph. -/
def jobDate (j : Job) : Block :=
  .para .left false [⟨j.dates.getD "", false, true, 10⟩]

/-- Blocks emitted for one job: header, date, one bullet per achievement. -/
def jobBlocks (j : Job) : List Block :=
  jobHeader j :: jobDate j :: j.achievements.map bulletPara

/-- `build_experience`: heading plus the blocks of each job, only when
`experience` is non-empty. -/
def build_experience (t : Translations) (experience : List Job) : List Block :=
  if experience.isEmpty then []
  else sectionHeading t.professional_experience :: (experience.map jobBlocks).flatten

/-- Blocks emitted for one education entry: bold degree paragraph, italic
`"<institution> | <dates>"` paragraph, optional details bullet. -/
def eduBlocks (e : Edu) : List Block :=
  [.para .left false [⟨e.degree.getD "", true, false, 11⟩],
   .para .left false [⟨e.institution.getD "" ++ " | " ++ e.dates.getD "", false, true, 11⟩]]
  ++ (if truthy e.details then [bulletPara (e.details.getD "")] else [])

/-- `build_education`: heading plus the blocks of each entry, only when
`education` is non-empty. -/
def build_education (t : Translations) (education : List Edu) : List Block :=
  if education.isEmpty then []
  else sectionHeading t.education :: (education.map eduBlocks).flatten

/-- Python `l[k]`: value when the key is present, `KeyError` otherwise. -/
def dictGet (o : Option String) (k : String) : Except String String :=
  match o with
  | some v => .ok v
  | none => .error ("KeyError: " ++ k)

/-- The comprehension body `f"{l['language']} ({l['level']})"`, with the
two direct dictionary accesses. -/
def langStr (l : LangEntry) : Except String String := do
  let n ← dictGet l.language "language"
  let v ← dictGet l.level "level"
  return n ++ " (" ++ v ++ ")"

/-- The comprehension `[f"{l['language']} ({l['level']})" for l in languages]`:
entries evaluated left to right, the first `KeyError` aborting it. -/
def langStrs : List LangEntry → Except String (List String)
  | [] => .ok []
  | l :: ls => do
    let s ← langStr l
    let rest ← langStrs ls
    return s :: rest

/-- `build_certifications_and_languages`: nothing when both lists are
empty; otherwise a heading and one combined line, certifications part and
languages part joined by `"  •  "`.  The languages comprehension indexes
the entries directly, so it can raise `KeyError`. -/
def build_certifications_and_languages (t : Translations)
    (certs : List String) (languages : List LangEntry) :
    Except String (List Block) :=
  if certs.isEmpty && languages.isEmpty then
    .ok []
  else
    let certParts :=
      if certs.isEmpty then []
      else [t.certifications ++ ": " ++ String.intercalate ", " certs]
    (if languages.isEmpty then pure []
     else do
       let lang_strs ← langStrs languages
       pure [t.languages ++ ": " ++ String.intercalate ", " lang_strs]) >>=
    fun langParts =>
      .ok [sectionHeading t.certifications_languages,
           .para .left false
             [⟨String.intercalate "  •  " (certParts ++ langParts), false, false, 11⟩]]

/-- `generate`: the six build steps in source order.  Only the
certifications-and-languages step can fail. -/
def generate (r : ProfileRecord) (t : Translations) (photo_path : Option String)
    (fileExists : String → Bool) : Except String (List Block) := do
  let cl ← build_certifications_and_languages t r.certifications r.languages
  return build_header r.personal photo_path fileExists
    ++ build_summary t r.summary
    ++ build_skills t r.skills
    ++ build_experience t r.experience
    ++ build_education t r.education
    ++ cl

/-- `CVGenerator(data, language, photo).generate(...)`: the constructor
resolves the language (unknown codes fall back to English) and `generate`
renders the record. -/
def CVGenerator.run (data : ProfileRecord) (language : String)
    (photo_path : Option String) (fileExists : String → Bool) :
    Except String (List Block) :=
  generate data (resolveLang language) photo_path fileExists

/-- `main` after argument parsing, over a filesystem abstraction: whether
the input file exists, and the result of `json.load` on it when it does.
A missing input file prints the two diagnostic lines and returns exit
code 1 before the data is read or parsed; otherwise the record is
rendered and exit code 0 returned.  An exception escaping `generate`
(or `json.load`) is an uncaught crash, modelled as `.error`.  The
informational prints of the success path are not diagnostics and are not
modelled. -/
def mainRun (input_path : String) (inputExists : Bool)
    (parsed : Except String ProfileRecord) (language : String)
    (photo_path : Option String) (fileExists : String → Bool) :
    Except String (Nat × List String × Option (List Block)) :=
  if !inputExists then
    .ok (1,
      ["Error: Input file not found: " ++ input_path,
       "   Create a cv_data.json file with your CV data or specify --input path"],
      none)
  else do
    let data ← parsed
    let doc ← CVGenerator.run data language photo_path fileExists
    return (0, [], some doc)

/-! ### Derived notions used to state the claims -/

/-- Display of one language entry once both keys resolved:
`"<language> (<level>)"`. -/
def langDisplay (l : LangEntry) : String :=
  l.language.getD "" ++ " (" ++ l.level.getD "" ++ ")"

/-- The text of the combined certifications-and-languages line. -/
def clLine (t : Translations) (certs : List String) (langs : List LangEntry) : String :=
  String.intercalate "  •  "
    ((if certs.isEmpty then []
      else [t.certifications ++ ": " ++ String.intercalate ", " certs])
     ++ (if langs.isEmpty then []
         else [t.languages ++ ": " ++ String.intercalate ", " (langs.map langDisplay)]))

/-- A block is a section heading exactly when it carries the bottom
border, which only `_add_section_heading` sets. -/
def isHeadingBlock : Block → Bool
  | .para _ border _ => border
  | .headerTable _ _ => false

/-- The section headings of a document, in order. -/
def headings (doc : List Block) : List Block :=
  doc.filter isHeadingBlock

/-! ### Basic lemmas -/

lemma except_bind_ok {α β : Type} (x : Except String α) (f : α → Except String β)
    (b : β) : x >>= f = .ok b ↔ ∃ a, x = .ok a ∧ f a = .ok b := by
  cases x <;> simp [Bind.bind, Except.bind]

lemma langStrs_of_complete (langs : List LangEntry)
    (h : ∀ l ∈ langs, l.language.isSome ∧ l.level.isSome) :
    langStrs langs = .ok (langs.map langDisplay) := by
  induction langs with
  | nil => rfl
  | cons a as ih =>
    obtain ⟨h1, h2⟩ := h a (List.mem_cons_self a as)
    obtain ⟨n, hn⟩ := Option.isSome_iff_exists.mp h1
    obtain ⟨v, hv⟩ := Option.isSome_iff_exists.mp h2
    rw [langStrs, ih (fun l hl => h l (List.mem_cons_of_mem a hl))]
    simp [langStr, dictGet, hn, hv, langDisplay, Bind.bind, Except.bind, pure,
      Except.pure]

lemma build_cl_ok_of_complete (t : Translations) (certs : List String)
    (langs : List LangEntry)
    (h : ∀ l ∈ langs, l.language.isSome ∧ l.level.isSome) :
    build_certifications_and_languages t certs langs =
      .ok (if certs.isEmpty && langs.isEmpty then []
           else [sectionHeading t.certifications_languages,
                 .para .left false [⟨clLine t certs langs, false, false, 11⟩]]) := by
  have hm := langStrs_of_complete langs h
  unfold build_certifications_and_languages clLine
  rcases hc : certs.isEmpty <;> rcases hl : langs.isEmpty <;>
    simp [hc, hl, hm, Bind.bind, Except.bind, pure, Except.pure]

lemma headings_append (a b : List Block) :
    headings (a ++ b) = headings a ++ headings b :=
  List.filter_append ..

lemma isHeadingBlock_sectionHeading (s : String) :
    isHeadingBlock (sectionHeading s) = true := rfl

lemma headings_build_header (p : Personal) (ph : Option String)
    (fs : String → Bool) : headings (build_header p ph fs) = [] := by
  rw [headings, List.filter_eq_nil_iff]
  intro b hb
  simp only [Bool.not_eq_true]
  unfold build_header at hb
  split at hb
  · simp only [List.mem_cons, List.not_mem_nil, or_false] at hb
    rcases hb with rfl | rfl <;> rfl
  · rcases List.mem_append.mp hb with hb | hb
    · rcases List.mem_append.mp hb with hb | hb
      · simp only [List.mem_cons, List.not_mem_nil, or_false] at hb
        rcases hb with rfl | rfl <;> rfl
      · split at hb
        · simp at hb
        · simp only [List.mem_cons, List.not_mem_nil, or_false] at hb
          subst hb; rfl
    · split at hb
      · simp at hb
      · simp only [List.mem_cons, List.not_mem_nil, or_false] at hb
        subst hb; rfl

lemma headings_build_summary (t : Translations) (s : Option String) :
    headings (build_summary t s)
      = if truthy s then [sectionHeading t.professional_summary] else [] := by
  unfold build_summary
  split <;> rfl

lemma headings_build_skills (t : Translations) (skills : List (String × String)) :
    headings (build_skills t skills)
      = if skills.isEmpty then [] else [sectionHeading t.technical_skills] := by
  unfold build_skills
  split
  · rfl
  · simp only [headings, List.filter_cons, isHeadingBlock_sectionHeading, if_true]
    have : List.filter isHeadingBlock (skills.map (fun cs => skillLine cs.1 cs.2)) = [] := by
      rw [List.filter_eq_nil_iff]
      intro b hb
      obtain ⟨cs, _, rfl⟩ := List.mem_map.mp hb
      simp [skillLine, isHeadingBlock]
    simp [this, headings]

lemma isHeadingBlock_jobBlocks {b : Block} {j : Job} (hb : b ∈ jobBlocks j) :
    isHeadingBlock b = false := by
  simp only [jobBlocks, List.mem_cons, List.mem_map] at hb
  rcases hb with rfl | rfl | ⟨a, _, rfl⟩ <;> rfl

lemma headings_build_experience (t : Translations) (jobs : List Job) :
    headings (build_experience t jobs)
      = if jobs.isEmpty then [] else [sectionHeading t.professional_experience] := by
  unfold build_experience
  split
  · rfl
  · simp only [headings, List.filter_cons, isHeadingBlock_sectionHeading, if_true]
    have : List.filter isHeadingBlock (jobs.map jobBlocks).flatten = [] := by
      rw [List.filter_eq_nil_iff]
      intro b hb
      obtain ⟨bs, hbs, hmem⟩ := List.mem_flatten.mp hb
      obtain ⟨j, _, rfl⟩ := List.mem_map.mp hbs
      simp [isHeadingBlock_jobBlocks hmem]
    simp [this, headings]

lemma isHeadingBlock_eduBlocks {b : Block} {e : Edu} (hb : b ∈ eduBlocks e) :
    isHeadingBlock b = false := by
  unfold eduBlocks at hb
  rcases List.mem_append.mp hb with hb | hb
  · simp only [List.mem_cons, List.not_mem_nil, or_false] at hb
    rcases hb with rfl | rfl <;> rfl
  · split at hb
    · simp only [List.mem_cons, List.not_mem_nil, or_false] at hb
      subst hb; rfl
    · simp at hb

lemma headings_build_education (t : Translations) (edus : List Edu) :
    headings (build_education t edus)
      = if edus.isEmpty then [] else [sectionHeading t.education] := by
  unfold build_education
  split
  · rfl
  · simp only [headings, List.filter_cons, isHeadingBlock_sectionHeading, if_true]
    have : List.filter isHeadingBlock (edus.map eduBlocks).flatten = [] := by
      rw [List.filter_eq_nil_iff]
      intro b hb
      obtain ⟨bs, hbs, hmem⟩ := List.mem_flatten.mp hb
      obtain ⟨e, _, rfl⟩ := List.mem_map.mp hbs
      simp [isHeadingBlock_eduBlocks hmem]
    simp [this, headings]

lemma headings_build_cl (t : Translations) (certs : List String)
    (langs : List LangEntry) (bs : List Block)
    (h : build_certifications_and_languages t certs langs = .ok bs) :
    headings bs
      = if certs.isEmpty && langs.isEmpty then []
        else [sectionHeading t.certifications_languages] := by
  unfold build_certifications_and_languages at h
  by_cases hce : (certs.isEmpty && langs.isEmpty) = true
  · rw [if_pos hce] at h
    cases h
    rw [if_pos hce]
    rfl
  · rw [if_neg hce] at h
    rw [if_neg hce]
    rcases hl : langs.isEmpty
    · rw [hl] at h
      simp only [Bool.false_eq_true, if_false] at h
      rcases hls : langStrs langs with e | strs <;>
        rw [hls] at h <;>
        simp [Bind.bind, Except.bind, pure, Except.pure] at h
      cases h
      rfl
    · rw [hl] at h
      simp only [if_true] at h
      simp [Bind.bind, Except.bind, pure, Except.pure] at h
      cases h
      rfl

lemma generate_eq_ok (r : ProfileRecord) (t : Translations)
    (ph : Option String) (fs : String → Bool) (doc : List Block) :
    generate r t ph fs = .ok doc
      ↔ ∃ cl, build_certifications_and_languages t r.certifications r.languages = .ok cl
          ∧ doc = build_header r.personal ph fs
              ++ build_summary t r.summary
              ++ build_skills t r.skills
              ++ build_experience t r.experience
              ++ build_education t r.education
              ++ cl := by
  unfold generate
  rw [except_bind_ok]
  constructor
  · rintro ⟨cl, hcl, hdoc⟩
    refine ⟨cl, hcl, ?_⟩
    cases hdoc
    rfl
  · rintro ⟨cl, hcl, rfl⟩
    exact ⟨cl, hcl, rfl⟩

lemma headings_generate (r : ProfileRecord) (t : Translations)
    (ph : Option String) (fs : String → Bool) (doc : List Block)
    (h : generate r t ph fs = .ok doc) :
    headings doc
      = (if truthy r.summary then [sectionHeading t.professional_summary] else [])
        ++ (if r.skills.isEmpty then [] else [sectionHeading t.technical_skills])
        ++ (if r.experience.isEmpty then [] else [sectionHeading t.professional_experience])
        ++ (if r.education.isEmpty then [] else [sectionHeading t.education])
        ++ (if r.certifications.isEmpty && r.languages.isEmpty then []
            else [sectionHeading t.certifications_languages]) := by
  obtain ⟨cl, hcl, rfl⟩ := (generate_eq_ok r t ph fs doc).mp h
  rw [headings_append, headings_append, headings_append, headings_append,
    headings_append, headings_build_header, headings_build_summary,
    headings_build_skills, headings_build_experience, headings_build_education,
    headings_build_cl t r.certifications r.languages cl hcl]
  simp

/-- The constructor resolves any language code to one of the two tables. -/
lemma resolveLang_cases (language : String) :
    resolveLang language = tr_en ∨ resolveLang language = tr_es := by
  unfold resolveLang TRANSLATIONS
  split
  · left; rfl
  · split
    · right; rfl
    · left; rfl

lemma mem_ite_singleton (x y : Block) (c : Bool) :
    (x ∈ if c then [y] else ([] : List Block)) ↔ (c = true ∧ x = y) := by
  rcases c <;> simp

lemma mem_ite_singleton_not (x y : Block) (c : Bool) :
    (x ∈ if c then ([] : List Block) else [y]) ↔ (c = false ∧ x = y) := by
  rcases c <;> simp

/-- A section heading belongs to a successfully generated document exactly
when it belongs to one of the five conditionally rendered heading slots. -/
lemma heading_mem_doc (r : ProfileRecord) (t : Translations) (ph : Option String)
    (fs : String → Bool) (doc : List Block) (h : generate r t ph fs = .ok doc)
    (s : String) :
    (sectionHeading s ∈ doc)
      ↔ (truthy r.summary = true ∧ sectionHeading s = sectionHeading t.professional_summary)
        ∨ (r.skills.isEmpty = false ∧ sectionHeading s = sectionHeading t.technical_skills)
        ∨ (r.experience.isEmpty = false
            ∧ sectionHeading s = sectionHeading t.professional_experience)
        ∨ (r.education.isEmpty = false ∧ sectionHeading s = sectionHeading t.education)
        ∨ ((r.certifications.isEmpty && r.languages.isEmpty) = false
            ∧ sectionHeading s = sectionHeading t.certifications_languages) := by
  have hmem : (sectionHeading s ∈ doc) ↔ sectionHeading s ∈ headings doc := by
    rw [headings]
    constructor
    · intro hx
      exact List.mem_filter.mpr ⟨hx, isHeadingBlock_sectionHeading s⟩
    · intro hx
      exact (List.mem_filter.mp hx).1
  rw [hmem, headings_generate r t ph fs doc h]
  simp only [List.mem_append, mem_ite_singleton, mem_ite_singleton_not]
  tauto

lemma summary_heading_mem (r : ProfileRecord) (t : Translations) (ph : Option String)
    (fs : String → Bool) (doc : List Block) (h : generate r t ph fs = .ok doc)
    (ht : t = tr_en ∨ t = tr_es) :
    (sectionHeading t.professional_summary ∈ doc) ↔ truthy r.summary = true := by
  rw [heading_mem_doc r t ph fs doc h]
  rcases ht with rfl | rfl
  · have h1 : sectionHeading tr_en.professional_summary
        ≠ sectionHeading tr_en.technical_skills := by decide
    have h2 : sectionHeading tr_en.professional_summary
        ≠ sectionHeading tr_en.professional_experience := by decide
    have h3 : sectionHeading tr_en.professional_summary
        ≠ sectionHeading tr_en.education := by decide
    have h4 : sectionHeading tr_en.professional_summary
        ≠ sectionHeading tr_en.certifications_languages := by decide
    simp [h1, h2, h3, h4]
  · have h1 : sectionHeading tr_es.professional_summary
        ≠ sectionHeading tr_es.technical_skills := by decide
    have h2 : sectionHeading tr_es.professional_summary
        ≠ sectionHeading tr_es.professional_experience := by decide
    have h3 : sectionHeading tr_es.professional_summary
        ≠ sectionHeading tr_es.education := by decide
    have h4 : sectionHeading tr_es.professional_summary
        ≠ sectionHeading tr_es.certifications_languages := by decide
    simp [h1, h2, h3, h4]

lemma skills_heading_mem (r : ProfileRecord) (t : Translations) (ph : Option String)
    (fs : String → Bool) (doc : List Block) (h : generate r t ph fs = .ok doc)
    (ht : t = tr_en ∨ t = tr_es) :
    (sectionHeading t.technical_skills ∈ doc) ↔ r.skills.isEmpty = false := by
  rw [heading_mem_doc r t ph fs doc h]
  rcases ht with rfl | rfl
  · have h1 : sectionHeading tr_en.technical_skills
        ≠ sectionHeading tr_en.professional_summary := by decide
    have h2 : sectionHeading tr_en.technical_skills
        ≠ sectionHeading tr_en.professional_experience := by decide
    have h3 : sectionHeading tr_en.technical_skills
        ≠ sectionHeading tr_en.education := by decide
    have h4 : sectionHeading tr_en.technical_skills
        ≠ sectionHeading tr_en.certifications_languages := by decide
    simp [h1, h2, h3, h4]
  · have h1 : sectionHeading tr_es.technical_skills
        ≠ sectionHeading tr_es.professional_summary := by decide
    have h2 : sectionHeading tr_es.technical_skills
        ≠ sectionHeading tr_es.professional_experience := by decide
    have h3 : sectionHeading tr_es.technical_skills
        ≠ sectionHeading tr_es.education := by decide
    have h4 : sectionHeading tr_es.technical_skills
        ≠ sectionHeading tr_es.certifications_languages := by decide
    simp [h1, h2, h3, h4]

lemma experience_heading_mem (r : ProfileRecord) (t : Translations)
    (ph : Option String) (fs : String → Bool) (doc : List Block)
    (h : generate r t ph fs = .ok doc) (ht : t = tr_en ∨ t = tr_es) :
    (sectionHeading t.professional_experience ∈ doc)
      ↔ r.experience.isEmpty = false := by
  rw [heading_mem_doc r t ph fs doc h]
  rcases ht with rfl | rfl
  · have h1 : sectionHeading tr_en.professional_experience
        ≠ sectionHeading tr_en.professional_summary := by decide
    have h2 : sectionHeading tr_en.professional_experience
        ≠ sectionHeading tr_en.technical_skills := by decide
    have h3 : sectionHeading tr_en.professional_experience
        ≠ sectionHeading tr_en.education := by decide
    have h4 : sectionHeading tr_en.professional_experience
        ≠ sectionHeading tr_en.certifications_languages := by decide
    simp [h1, h2, h3, h4]
  · have h1 : sectionHeading tr_es.professional_experience
        ≠ sectionHeading tr_es.professional_summary := by decide
    have h2 : sectionHeading tr_es.professional_experience
        ≠ sectionHeading tr_es.technical_skills := by decide
    have h3 : sectionHeading tr_es.professional_experience
        ≠ sectionHeading tr_es.education := by decide
    have h4 : sectionHeading tr_es.professional_experience
        ≠ sectionHeading tr_es.certifications_languages := by decide
    simp [h1, h2, h3, h4]

/-! ### Claims -/

/-- C1: for every record with non-empty `skills`, the Skills section is
rendered as the Technical Skills heading followed by exactly one line per
skill category, each reading `"<Category>: <comma-separated skills>"`, in
the input (insertion) order of the categories; for empty `skills` the
builder emits nothing and no Technical Skills heading appears in the
document. -/
theorem skills_section_correct (r : ProfileRecord) (lang : String)
    (ph : Option String) (fs : String → Bool) (doc : List Block)
    (h : generate r (resolveLang lang) ph fs = .ok doc) :
    (r.skills ≠ [] →
        build_skills (resolveLang lang) r.skills
          = sectionHeading (resolveLang lang).technical_skills
              :: r.skills.map (fun cs => skillLine cs.1 cs.2)
        ∧ (∀ cs ∈ r.skills, blockText (skillLine cs.1 cs.2) = cs.1 ++ ": " ++ cs.2)
        ∧ sectionHeading (resolveLang lang).technical_skills ∈ doc)
    ∧ (r.skills = [] →
        build_skills (resolveLang lang) r.skills = []
        ∧ sectionHeading (resolveLang lang).technical_skills ∉ doc) := by
  have hmem := skills_heading_mem r _ ph fs doc h (resolveLang_cases lang)
  constructor
  · intro hne
    have hie : r.skills.isEmpty = false := by
      cases hsk : r.skills with
      | nil => exact absurd hsk hne
      | cons a as => rfl
    refine ⟨by simp [build_skills, hie], fun cs _ => rfl, hmem.mpr hie⟩
  · intro he
    refine ⟨by simp [build_skills, he], ?_⟩
    rw [hmem, he]
    simp

/-- C1 witness: a record with two skill categories renders both lines in
order; the instance also exhibits the rendered document. -/
theorem skills_section_correct_witness :
    (generate { skills := [("Languages", "Python, SQL"), ("Tools", "Docker, Git")] }
        (resolveLang "en") none (fun _ => false)
      = .ok [namePara {}, titlePara {}, sectionHeading "Technical Skills",
             skillLine "Languages" "Python, SQL", skillLine "Tools" "Docker, Git"])
    ∧ ([("Languages", "Python, SQL"), ("Tools", "Docker, Git")] : List (String × String)) ≠ []
    ∧ sectionHeading (resolveLang "en").technical_skills
        ∈ [namePara {}, titlePara {}, sectionHeading "Technical Skills",
           skillLine "Languages" "Python, SQL", skillLine "Tools" "Docker, Git"] :=
  ⟨rfl, by decide,
   ((skills_section_correct
      { skills := [("Languages", "Python, SQL"), ("Tools", "Docker, Git")] }
      "en" none (fun _ => false) _ rfl).1 (by decide)).2.2⟩

/-- C2: the Professional Summary section (locale heading plus the summary
paragraph) is rendered iff the summary field is present and non-empty;
with an empty or missing summary, nothing of it is rendered and the
document contains no such heading. -/
theorem summary_section_iff (r : ProfileRecord) (lang : String)
    (ph : Option String) (fs : String → Bool) (doc : List Block)
    (h : generate r (resolveLang lang) ph fs = .ok doc) :
    ((sectionHeading (resolveLang lang).professional_summary ∈ doc)
        ↔ truthy r.summary = true)
    ∧ (truthy r.summary = true →
        build_summary (resolveLang lang) r.summary
          = [sectionHeading (resolveLang lang).professional_summary,
             .para .left false [⟨r.summary.getD "", false, false, 11⟩]])
    ∧ (truthy r.summary = false → build_summary (resolveLang lang) r.summary = []) := by
  refine ⟨summary_heading_mem r _ ph fs doc h (resolveLang_cases lang), ?_, ?_⟩
  · intro ht
    simp [build_summary, ht]
  · intro ht
    simp [build_summary, ht]

/-- C2 witness: with an empty summary string the generated document has no
Professional Summary heading. -/
theorem summary_section_iff_witness :
    (generate { summary := some "" } (resolveLang "en") none (fun _ => false)
      = .ok [namePara {}, titlePara {}])
    ∧ sectionHeading (resolveLang "en").professional_summary
        ∉ ([namePara {}, titlePara {}] : List Block) :=
  ⟨rfl,
   fun hmem =>
     absurd
       ((summary_section_iff { summary := some "" } "en" none (fun _ => false)
         [namePara {}, titlePara {}] rfl).1.mp hmem)
       (by decide)⟩

/-- C3: the combined Certifications & Languages section is rendered iff
at least one of the two lists is non-empty, and is a heading plus a
single line joining the labelled certification group and the labelled
language group (each entry `"<language> (<level>)"`) with the `"  •  "`
glyph; the quoted scenario gives exactly the quoted English line. -/
theorem certs_langs_combined_line (t : Translations) (certs : List String)
    (langs : List LangEntry)
    (hc : ∀ l ∈ langs, l.language.isSome ∧ l.level.isSome) :
    (certs = [] → langs = [] →
        build_certifications_and_languages t certs langs = .ok [])
    ∧ ((certs ≠ [] ∨ langs ≠ []) →
        build_certifications_and_languages t certs langs
          = .ok [sectionHeading t.certifications_languages,
                 .para .left false [⟨clLine t certs langs, false, false, 11⟩]])
    ∧ (∀ l : LangEntry, l.language.isSome → l.level.isSome →
        langStr l = .ok (l.language.getD "" ++ " (" ++ l.level.getD "" ++ ")"))
    ∧ build_certifications_and_languages tr_en ["AWS SA"]
        [{ language := some "English", level := some "Native" }]
        = .ok [sectionHeading "Certifications & Languages",
               .para .left false
                 [⟨"Certifications: AWS SA  •  Languages: English (Native)",
                   false, false, 11⟩]] := by
  refine ⟨?_, ?_, ?_, ?_⟩
  · rintro rfl rfl
    rfl
  · intro hne
    rw [build_cl_ok_of_complete t certs langs hc]
    have : (certs.isEmpty && langs.isEmpty) = false := by
      rcases hne with hne | hne
      · cases hcs : certs with
        | nil => exact absurd hcs hne
        | cons a as => rfl
      · cases hls : langs with
        | nil => exact absurd hls hne
        | cons a as => simp
    rw [this]
    simp
  · intro l h1 h2
    obtain ⟨n, hn⟩ := Option.isSome_iff_exists.mp h1
    obtain ⟨v, hv⟩ := Option.isSome_iff_exists.mp h2
    simp [langStr, dictGet, hn, hv, Bind.bind, Except.bind, pure, Except.pure]
  · rfl

/-- C3 witness: the quoted scenario instantiates the theorem and yields
the quoted combined line. -/
theorem certs_langs_combined_line_witness :
    (∀ l ∈ ([{ language := some "English", level := some "Native" }] : List LangEntry),
        l.language.isSome ∧ l.level.isSome)
    ∧ build_certifications_and_languages tr_en ["AWS SA"]
        [{ language := some "English", level := some "Native" }]
        = .ok [sectionHeading "Certifications & Languages",
               .para .left false
                 [⟨"Certifications: AWS SA  •  Languages: English (Native)",
                   false, false, 11⟩]] :=
  ⟨by decide,
   (certs_langs_combined_line tr_en ["AWS SA"]
      [{ language := some "English", level := some "Native" }] (by decide)).2.2.2⟩

/-- A concrete job used to state the C4 scenario. -/
def sampleJob : Job :=
  { title := some "Engineer", company := some "Acme", location := some "Remote",
    dates := some "2020 - 2023",
    achievements := ["Shipped the launcher", "Cut build times"] }

/-- C4: the Experience section is rendered iff `experience` is non-empty;
each job contributes a `"<title> | <company> | <location>"` header line, a
date line, then one bullet per achievement in input order; a job with two
achievements yields exactly those two bullet lines in the order supplied. -/
theorem experience_section_correct (r : ProfileRecord) (lang : String)
    (ph : Option String) (fs : String → Bool) (doc : List Block)
    (h : generate r (resolveLang lang) ph fs = .ok doc) :
    (r.experience = [] →
        build_experience (resolveLang lang) r.experience = []
        ∧ sectionHeading (resolveLang lang).professional_experience ∉ doc)
    ∧ (r.experience ≠ [] →
        build_experience (resolveLang lang) r.experience
          = sectionHeading (resolveLang lang).professional_experience
              :: (r.experience.map jobBlocks).flatten
        ∧ sectionHeading (resolveLang lang).professional_experience ∈ doc)
    ∧ (∀ j : Job,
        jobBlocks j = jobHeader j :: jobDate j :: j.achievements.map bulletPara
        ∧ blockText (jobHeader j)
            = j.title.getD "" ++ " | " ++ j.company.getD "" ++ " | " ++ j.location.getD ""
        ∧ blockText (jobDate j) = j.dates.getD ""
        ∧ (∀ a ∈ j.achievements, blockText (bulletPara a) = "• " ++ a))
    ∧ build_experience tr_en [sampleJob]
        = [sectionHeading "Professional Experience", jobHeader sampleJob,
           jobDate sampleJob, bulletPara "Shipped the launcher",
           bulletPara "Cut build times"] := by
  have hmem := experience_heading_mem r _ ph fs doc h (resolveLang_cases lang)
  refine ⟨?_, ?_, ?_, rfl⟩
  · intro he
    refine ⟨by simp [build_experience, he], ?_⟩
    rw [hmem, he]
    simp
  · intro hne
    have hie : r.experience.isEmpty = false := by
      cases hsk : r.experience with
      | nil => exact absurd hsk hne
      | cons a as => rfl
    exact ⟨by simp [build_experience, hie], hmem.mpr hie⟩
  · intro j
    refine ⟨rfl, ?_, rfl, fun a _ => rfl⟩
    simp only [blockText, jobHeader, DocRun.text, List.map_cons, List.map_nil,
      String.join, List.foldl]
    rw [String.append_assoc, String.append_assoc, String.append_assoc]
    simp [String.append_assoc]

/-- C4 witness: a record holding the sample job renders the two bullets
under its header in order. -/
theorem experience_section_correct_witness :
    (generate { experience := [sampleJob] } (resolveLang "en") none (fun _ => false)
      = .ok [namePara {}, titlePara {}, sectionHeading "Professional Experience",
             jobHeader sampleJob, jobDate sampleJob,
             bulletPara "Shipped the launcher", bulletPara "Cut build times"])
    ∧ ([sampleJob] : List Job) ≠ []
    ∧ build_experience (resolveLang "en") ({ experience := [sampleJob] : ProfileRecord}).experience
        = sectionHeading (resolveLang "en").professional_experience
            :: (([sampleJob] : List Job).map jobBlocks).flatten :=
  ⟨rfl, by decide,
   ((experience_section_correct { experience := [sampleJob] } "en" none
      (fun _ => false) _ rfl).2.1 (by decide)).1⟩

/-- C5: a photo path that does not resolve to an existing file renders the
same header (and the same whole document) as no photo path at all: the
centered full-width layout with no table. -/
theorem missing_photo_equals_no_photo (r : ProfileRecord) (t : Translations)
    (p : String) (fs : String → Bool) (h : fs p = false) :
    build_header r.personal (some p) fs = build_header r.personal none fs
    ∧ generate r t (some p) fs = generate r t none fs := by
  have hp : has_photo (some p) fs = false := by
    simp [has_photo, h]
  have hh : build_header r.personal (some p) fs = build_header r.personal none fs := by
    unfold build_header
    rw [hp]
    have hn : has_photo none fs = false := rfl
    rw [hn]
    simp
  exact ⟨hh, by simp only [generate, hh]⟩

/-- C5 witness: a non-existent path and the absent path render the same
document for a concrete record. -/
theorem missing_photo_equals_no_photo_witness :
    ((fun _ => false : String → Bool) "no-such-photo.png" = false)
    ∧ generate { personal := { name := some "Jane Doe" } } tr_en
        (some "no-such-photo.png") (fun _ => false)
      = generate { personal := { name := some "Jane Doe" } } tr_en none
          (fun _ => false) :=
  ⟨rfl,
   (missing_photo_equals_no_photo { personal := { name := some "Jane Doe" } }
      tr_en "no-such-photo.png" (fun _ => false) rfl).2⟩

/-- C6 counterexample: a record whose single language entry lacks its
subfields makes rendering fail with `KeyError: language` — the languages
comprehension indexes the entry dictionaries directly — so rendering does
not complete for every record with absent optional subfields. -/
theorem missing_language_subfield_keyerror :
    CVGenerator.run { languages := [{}] } "en" none (fun _ => false)
      = .error "KeyError: language" := rfl

/-- C6 (amended): rendering completes without error whenever every
language entry carries both its name and its level; absence of any other
optional field never raises and only omits content.  (The claim as stated
fails: a language entry with a missing subfield raises `KeyError`.) -/
theorem generate_ok_of_complete_languages (r : ProfileRecord) (lang : String)
    (ph : Option String) (fs : String → Bool)
    (h : ∀ l ∈ r.languages, l.language.isSome ∧ l.level.isSome) :
    ∃ doc, CVGenerator.run r lang ph fs = .ok doc := by
  unfold CVGenerator.run generate
  rw [build_cl_ok_of_complete _ _ _ h]
  exact ⟨_, rfl⟩

/-- C6 witness: a record missing every optional field except a complete
language entry renders successfully. -/
theorem generate_ok_of_complete_languages_witness :
    (∀ l ∈ ({ languages := [{ language := some "English", level := some "Native" }] }
        : ProfileRecord).languages, l.language.isSome ∧ l.level.isSome)
    ∧ ∃ doc, CVGenerator.run
        { languages := [{ language := some "English", level := some "Native" }] }
        "en" none (fun _ => false) = .ok doc :=
  ⟨by decide,
   generate_ok_of_complete_languages
     { languages := [{ language := some "English", level := some "Native" }] }
     "en" none (fun _ => false) (by decide)⟩

/-- C7 counterexample: with an experience entry whose title, company,
location and dates are all missing, the section is still rendered, its
header line reads `" |  | "` — dangling separators in place of the
missing fields — and a blank date line is rendered. -/
theorem dangling_separator_line :
    CVGenerator.run { experience := [{}] } "en" none (fun _ => false)
      = .ok [namePara {}, titlePara {}, sectionHeading "Professional Experience",
             jobHeader {}, jobDate {}]
    ∧ blockText (jobHeader {}) = " |  | "
    ∧ blockText (jobDate {}) = "" :=
  ⟨rfl, rfl, rfl⟩

/-- C7 (amended): a missing or empty top-level field omits its entire
section — never an empty placeholder — and a record with only personal
data renders just the header; but a missing subfield inside a present
experience or education entry is rendered as an empty string with the
surrounding `" | "` separators kept, not omitted. -/
theorem empty_field_sections_omitted (t : Translations) (p : Personal)
    (ph : Option String) (fs : String → Bool) :
    build_summary t none = []
    ∧ build_summary t (some "") = []
    ∧ build_skills t [] = []
    ∧ build_experience t [] = []
    ∧ build_education t [] = []
    ∧ build_certifications_and_languages t [] [] = .ok []
    ∧ generate { personal := p } t ph fs = .ok (build_header p ph fs)
    ∧ blockText (jobHeader {}) = " |  | "
    ∧ eduBlocks {} = [.para .left false [⟨"", true, false, 11⟩],
                      .para .left false [⟨" | ", false, true, 11⟩]] := by
  refine ⟨rfl, rfl, rfl, rfl, rfl, rfl, ?_, rfl, rfl⟩
  simp [generate, Bind.bind, Except.bind, build_certifications_and_languages,
    build_summary, build_skills, build_experience, build_education, truthy,
    pure, Except.pure]

/-- C8: the header is always rendered and shows the uppercased name and a
title; the contact line and links line are each omitted entirely when all
their constituent fields are absent; the record with only
`personal.name = "Jane Doe"` renders exactly the header — "JANE DOE" with
the default title placeholder — and no summary, skills, experience,
education or certifications section. -/
theorem header_always_rendered (p : Personal) (ph : Option String)
    (fs : String → Bool) :
    build_header p ph fs ≠ []
    ∧ build_header p none fs
        = [namePara p, titlePara p]
          ++ (if (contactParts p).isEmpty then [] else [contactPara p])
          ++ (if (linkParts p).isEmpty then [] else [linksPara p])
    ∧ (truthy p.email = false → truthy p.phone = false → truthy p.location = false →
        contactParts p = [])
    ∧ (truthy p.github = false → truthy p.linkedin = false → truthy p.portfolio = false →
        linkParts p = [])
    ∧ generate { personal := { name := some "Jane Doe" } } (resolveLang "en") none
        (fun _ => false)
      = .ok [.para .center false [⟨"JANE DOE", true, false, 26⟩],
             .para .center false [⟨"Professional Title", false, false, 13⟩]] := by
  refine ⟨?_, ?_, ?_, ?_, rfl⟩
  · unfold build_header
    split
    · simp
    · simp
  · unfold build_header
    have hn : has_photo none fs = false := rfl
    rw [hn]
    simp
  · intro h1 h2 h3
    simp [contactParts, h1, h2, h3]
  · intro h1 h2 h3
    simp [linkParts, h1, h2, h3]

/-- C8 witness: with every constituent field absent both the contact and
links lines vanish and the centered header is the two identity lines. -/
theorem header_always_rendered_witness :
    (truthy ({} : Personal).email = false)
    ∧ contactParts {} = []
    ∧ linkParts {} = []
    ∧ build_header {} none (fun _ => false) ≠ [] :=
  ⟨rfl,
   (header_always_rendered {} none (fun _ => false)).2.2.1 rfl rfl rfl,
   (header_always_rendered {} none (fun _ => false)).2.2.2.1 rfl rfl rfl,
   (header_always_rendered {} none (fun _ => false)).1⟩

/-- C9: rendering is deterministic — the embedded pipeline (constructor
plus `generate`) is a pure function of the record, the locale, the photo
configuration and the filesystem state, with no timestamp, randomness or
other hidden input, so equal inputs give identical output. -/
theorem generate_deterministic (r r2 : ProfileRecord) (lang lang2 : String)
    (ph ph2 : Option String) (fs fs2 : String → Bool)
    (h1 : r = r2) (h2 : lang = lang2) (h3 : ph = ph2) (h4 : fs = fs2) :
    CVGenerator.run r lang ph fs = CVGenerator.run r2 lang2 ph2 fs2 := by
  subst h1
  subst h2
  subst h3
  subst h4
  rfl

/-- C9 witness: two runs from the same concrete inputs agree. -/
theorem generate_deterministic_witness :
    CVGenerator.run { summary := some "Hi" } "es" none (fun _ => false)
      = CVGenerator.run { summary := some "Hi" } "es" none (fun _ => false) :=
  generate_deterministic { summary := some "Hi" } { summary := some "Hi" }
    "es" "es" none none (fun _ => false) (fun _ => false) rfl rfl rfl rfl

/-- C10: exit code 0 on successful generation; when the input file does
not exist, exit code 1 after the two human-readable diagnostic lines,
decided before the data is read or parsed (the outcome is independent of
the parse result); no other exit codes in the documented cases. -/
theorem main_exit_codes (input_path : String) (parsed : Except String ProfileRecord)
    (lang : String) (ph : Option String) (fs : String → Bool) :
    (mainRun input_path false parsed lang ph fs
      = .ok (1,
          ["Error: Input file not found: " ++ input_path,
           "   Create a cv_data.json file with your CV data or specify --input path"],
          none))
    ∧ (∀ parsed2, mainRun input_path false parsed lang ph fs
        = mainRun input_path false parsed2 lang ph fs)
    ∧ (∀ data doc, parsed = .ok data →
        CVGenerator.run data lang ph fs = .ok doc →
        mainRun input_path true parsed lang ph fs = .ok (0, [], some doc)) := by
  refine ⟨rfl, fun _ => rfl, ?_⟩
  rintro data doc rfl hgen
  simp [mainRun, Bind.bind, Except.bind, hgen, pure, Except.pure]

/-- C10 witness: a present, well-formed input exits 0 with the rendered
document; the missing-file branch is exercised inside the theorem. -/
theorem main_exit_codes_witness :
    ((Except.ok ({} : ProfileRecord) : Except String ProfileRecord) = .ok {})
    ∧ CVGenerator.run {} "en" none (fun _ => false) = .ok [namePara {}, titlePara {}]
    ∧ mainRun "cv_data.json" true (.ok {}) "en" none (fun _ => false)
        = .ok (0, [], some [namePara {}, titlePara {}]) :=
  ⟨rfl, rfl,
   (main_exit_codes "cv_data.json" (.ok {}) "en" none (fun _ => false)).2.2
     {} [namePara {}, titlePara {}] rfl rfl⟩

end ResumeCreator
